import Mathlib

/-!
Shallow embedding of the SkillLink backend's credit-ledger, connection
state machine, wallet auto-creation and matchmaking scorer, together with
theorems checking the specification's claims against this embedding.

The connection-acceptance handler is translated from the repository's
`PUT /api/connections/:id` route (the variant that performs the sufficiency
check, the debit/credit pair with rollback, the idempotency guard and the
two `credit_transactions` inserts).  User, skill and connection ids are
modelled as `ℕ`; supabase `.single()` lookups as `List.find?`; store faults
of the individual update statements as explicit boolean flags.  Credit
amounts (the store's fixed-scale `numeric` columns) are modelled as exact
decimals in integer minor units (`ℤ`): every operation the handlers perform
on amounts is addition, subtraction, comparison or equality, which the
fixed-scale decimals support exactly.
-/

namespace SkillLink

/-- Connection lifecycle status, per the `connections.status` check
constraint: `pending`, `accepted`, `rejected`, `completed`. -/
inductive ConnStatus
  | pending
  | accepted
  | rejected
  | completed
deriving DecidableEq, Repr

/-- Transaction kind, per the `credit_transactions.type` check constraint:
`purchase`, `spend`, `refund`. -/
inductive TxnType
  | purchase
  | spend
  | refund
deriving DecidableEq, Repr

/-- A row of the `users` table as read by the acceptance handler
(`select credits, email, full_name`); `credits` is optional because the
handler coalesces a missing value with `|| 0`. -/
structure UserRec where
  id : ℕ
  credits : Option ℤ
  email : String
  fullName : String
deriving DecidableEq, Repr

/-- A row of the `connections` table as read by the handlers
(`select teacher_id, learner_id, price, status, skill_id`). -/
structure ConnRec where
  id : ℕ
  skillId : ℕ
  learnerId : ℕ
  teacherId : ℕ
  price : ℤ
  status : ConnStatus
deriving DecidableEq, Repr

/-- The `meta` jsonb payload written with a credit transaction; the learner
row carries the teacher's id/name and the teacher row the learner's. -/
structure TxnMeta where
  connectionId : Option ℕ
  skillId : Option ℕ
  teacherId : Option ℕ
  teacherName : Option String
  learnerId : Option ℕ
  learnerName : Option String
  reason : Option String
deriving DecidableEq, Repr

/-- A row of the append-only `credit_transactions` table. -/
structure TxnRec where
  userId : ℕ
  type : TxnType
  amount : ℤ
  meta : TxnMeta
deriving DecidableEq, Repr

/-- A row of the `wallets` table (`user_id`, `balance`). -/
structure WalletRec where
  userId : ℕ
  balance : ℤ
deriving DecidableEq, Repr

/-- The relevant persisted state: the four tables the handlers touch. -/
structure DBState where
  users : List UserRec
  connections : List ConnRec
  transactions : List TxnRec
  wallets : List WalletRec
deriving DecidableEq, Repr

/-- Lookup `select ... from users where id = uid single()`. -/
def findUser (uid : ℕ) (users : List UserRec) : Option UserRec :=
  users.find? (fun u => u.id == uid)

/-- Lookup `select ... from connections where id = cid single()`. -/
def findConn (cid : ℕ) (conns : List ConnRec) : Option ConnRec :=
  conns.find? (fun c => c.id == cid)

/-- The effective credit balance the handler computes for a user:
`user.credits || 0`, and 0 when the row is absent. -/
def creditsOf (uid : ℕ) (st : DBState) : ℤ :=
  ((findUser uid st.users).bind (fun u => u.credits)).getD 0

/-- Statement `update users set credits = c where id = uid`. -/
def setCredits (uid : ℕ) (c : ℤ) (st : DBState) : DBState :=
  { st with users :=
      st.users.map (fun u => if u.id == uid then { u with credits := some c } else u) }

/-- Statement `update connections set status = s where id = cid`. -/
def setConnStatus (cid : ℕ) (s : ConnStatus) (st : DBState) : DBState :=
  { st with connections :=
      st.connections.map (fun c => if c.id == cid then { c with status := s } else c) }

/-- Statement `insert into credit_transactions ...` (append-only log). -/
def addTxn (t : TxnRec) (st : DBState) : DBState :=
  { st with transactions := st.transactions ++ [t] }

/-- Success flags for the individual store statements the acceptance
handler issues; a `false` flag models that statement returning an error. -/
structure StoreFlags where
  learnerFetchOk : Bool
  teacherFetchOk : Bool
  deductOk : Bool
  addOk : Bool
  connUpdateOk : Bool
deriving DecidableEq, Repr

/-- All store statements succeed (a healthy store). -/
def allOk : StoreFlags :=
  { learnerFetchOk := true, teacherFetchOk := true, deductOk := true
    addOk := true, connUpdateOk := true }

/-- The outcome the handler responds with: `ok` is the 200 path, the rest
are the distinct 404/403/400/500 error responses. -/
inductive Outcome
  | ok
  | notFound
  | forbidden
  | learnerFetchFail
  | insufficientFunds
  | teacherFetchFail
  | deductFail
  | addFail
  | connUpdateFail
deriving DecidableEq, Repr

/-- A `.single()` user fetch under a store-fault flag: an erroring statement
yields no row. -/
def fetchUser (okFlag : Bool) (uid : ℕ) (st : DBState) : Option UserRec :=
  if okFlag then findUser uid st.users else none

/-- The `spend` transaction inserted for the learner on acceptance. -/
def spendTxn (cid : ℕ) (conn : ConnRec) (teacherName : String) : TxnRec :=
  { userId := conn.learnerId
    type := .spend
    amount := conn.price
    meta :=
      { connectionId := some cid
        skillId := some conn.skillId
        teacherId := some conn.teacherId
        teacherName := some teacherName
        learnerId := none
        learnerName := none
        reason := some "Payment for learning session" } }

/-- The earning transaction inserted for the teacher on acceptance; the
code stores it with type `refund` as a workaround for the missing `earn`
kind in the check constraint. -/
def earnTxn (cid : ℕ) (conn : ConnRec) (learnerName : String) : TxnRec :=
  { userId := conn.teacherId
    type := .refund
    amount := conn.price
    meta :=
      { connectionId := some cid
        skillId := some conn.skillId
        teacherId := none
        teacherName := none
        learnerId := some conn.learnerId
        learnerName := some learnerName
        reason := some "Earnings from teaching session" } }

/-- The final `update connections set status = ...` step of the PUT
handler; on a store fault the handler responds 500 with the state so far. -/
def finishStatusUpdate (st : DBState) (cid : ℕ) (s : ConnStatus) (okFlag : Bool) :
    Outcome × DBState :=
  if okFlag then (.ok, setConnStatus cid s st) else (.connUpdateFail, st)

/-- Handler `PUT /api/connections/:id` (status update with credit transfer on
acceptance), translated step by step from the route handler: fetch the
connection (404), teacher-only guard (403), and — when the requested status
is `accepted` and the current status is not already `accepted` — fetch the
learner, check sufficiency (400 on insufficient credits), fetch the teacher,
debit the learner, credit the teacher (rolling the debit back if the credit
statement fails), insert the spend/earning transaction pair, and finally
persist the requested status. -/
def putConnection (st : DBState) (actor cid : ℕ) (reqStatus : ConnStatus)
    (fl : StoreFlags) : Outcome × DBState :=
  match findConn cid st.connections with
  | none => (.notFound, st)
  | some conn =>
    if conn.teacherId ≠ actor then (.forbidden, st)
    else if reqStatus = .accepted ∧ conn.status ≠ .accepted then
      match fetchUser fl.learnerFetchOk conn.learnerId st with
      | none => (.learnerFetchFail, st)
      | some learner =>
        if learner.credits.getD 0 < conn.price then (.insufficientFunds, st)
        else
          match fetchUser fl.teacherFetchOk conn.teacherId st with
          | none => (.teacherFetchFail, st)
          | some teacher =>
            if fl.deductOk = false then (.deductFail, st)
            else
              if fl.addOk = false then
                (.addFail, setCredits conn.learnerId (learner.credits.getD 0)
                  (setCredits conn.learnerId (learner.credits.getD 0 - conn.price) st))
              else
                finishStatusUpdate
                  (addTxn (earnTxn cid conn learner.fullName)
                    (addTxn (spendTxn cid conn teacher.fullName)
                      (setCredits conn.teacherId (teacher.credits.getD 0 + conn.price)
                        (setCredits conn.learnerId (learner.credits.getD 0 - conn.price) st))))
                  cid reqStatus fl.connUpdateOk
    else
      finishStatusUpdate st cid reqStatus fl.connUpdateOk

/-- Handler `DELETE /api/connections/:id` (cancel): fetch the connection (404),
learner-only guard (403), then delete the row.  The handler performs no
check on the connection's current status. -/
def deleteConnection (st : DBState) (actor cid : ℕ) : Outcome × DBState :=
  match findConn cid st.connections with
  | none => (.notFound, st)
  | some conn =>
    if conn.learnerId ≠ actor then (.forbidden, st)
    else (.ok, { st with connections := st.connections.filter (fun c => !(c.id == cid)) })

/-- Handler `GET /api/credits/balance` (wallet variant): an unauthenticated caller
gets the demo balance 100; otherwise the wallet row is fetched, created
with balance 100 when absent, and its balance returned (`parseFloat(b) || 100`
turns a stored 0 back into 100 in the response). -/
def getBalance (st : DBState) (user : Option ℕ) : ℤ × DBState :=
  match user with
  | none => (100, st)
  | some uid =>
    match st.wallets.find? (fun w => w.userId == uid) with
    | none => (100, { st with wallets := st.wallets ++ [{ userId := uid, balance := 100 }] })
    | some w => (if w.balance = 0 then 100 else w.balance, st)

/-! ### Matchmaking scorer -/

/-- ASCII-wise lowercasing of a string, modelling `toLowerCase()`. -/
def lowerStr (s : String) : String :=
  String.mk (s.data.map Char.toLower)

/-- The case-insensitive normalization of a tag list into a set, as the
scorer's `new Set(tags.map(t => t.toLowerCase()))`. -/
def normTags (tags : List String) : Finset String :=
  (tags.map lowerStr).toFinset

/-- Scorer `calculateTagOverlapScore`: 0 when either normalized set is empty,
otherwise `|A ∩ B| / sqrt(|A| * |B|)`. -/
noncomputable def calculateTagOverlapScore (tagsA tagsB : List String) : ℝ :=
  if (normTags tagsA).card = 0 ∨ (normTags tagsB).card = 0 then 0
  else ((normTags tagsA ∩ normTags tagsB).card : ℝ) /
    Real.sqrt (((normTags tagsA).card : ℝ) * ((normTags tagsB).card : ℝ))

/-- A row of the `skills` table as selected by the matchmaking service
(`id, title, description, owner_id, price, tags`); `description` and `tags`
are nullable. -/
structure Skill where
  id : ℕ
  title : String
  description : Option String
  ownerId : ℕ
  price : ℤ
  tags : Option (List String)
deriving DecidableEq, Repr

/-- Whether `needle` occurs at the head of `hay` (character lists). -/
def charsLeadMatch : List Char → List Char → Bool
  | [], _ => true
  | _ :: _, [] => false
  | c :: cs, h :: hs => c == h && charsLeadMatch cs hs

/-- Whether `needle` occurs anywhere inside `hay` (character lists). -/
def charsContain (needle : List Char) : List Char → Bool
  | [] => needle.isEmpty
  | h :: hs => charsLeadMatch needle (h :: hs) || charsContain needle hs

/-- Case-insensitive substring test, as both the `ilike` title filter and
`description.toLowerCase().includes(query.toLowerCase())`. -/
def ciContains (hay needle : String) : Bool :=
  charsContain (needle.data.map Char.toLower) (hay.data.map Char.toLower)

/-- The `ilike title %query%` candidate filter of `searchSkillsByQuery`. -/
def titleMatches (q : String) (s : Skill) : Bool :=
  ciContains s.title q

/-- The relevance score of a candidate: tag count, plus 2 when the
description contains the query case-insensitively. -/
def searchScore (q : String) (s : Skill) : ℕ :=
  (s.tags.getD []).length +
    (match s.description with
     | none => 0
     | some d => if ciContains d q then 2 else 0)

/-- A candidate skill together with its computed relevance score. -/
structure ScoredSkill where
  skill : Skill
  score : ℕ
deriving DecidableEq, Repr

/-- Attach the relevance score to a candidate. -/
def mkScored (q : String) (s : Skill) : ScoredSkill :=
  { skill := s, score := searchScore q s }

/-- The ordering used by `sort((a, b) => b.score - a.score)`: descending
score; JS `Array.prototype.sort` is stable, so insertion sort with this
non-strict relation models it exactly. -/
def scoreGE (a b : ScoredSkill) : Prop :=
  b.score ≤ a.score

instance : DecidableRel scoreGE :=
  fun a b => inferInstanceAs (Decidable (b.score ≤ a.score))

instance : IsTotal ScoredSkill scoreGE :=
  ⟨fun a b => le_total b.score a.score⟩

instance : IsTrans ScoredSkill scoreGE :=
  ⟨fun _ _ _ hab hbc => le_trans hbc hab⟩

/-- Search `searchSkillsByQuery`: the store query filters the skills whose title
contains the query case-insensitively and truncates to `limit` rows
*before* scoring; the handler then scores those rows and sorts them by
descending score. -/
def searchSkillsByQuery (store : List Skill) (q : String) (limit : ℕ) :
    List ScoredSkill :=
  List.insertionSort scoreGE
    (((store.filter (fun s => titleMatches q s)).take limit).map (mkScored q))

/-- Modelled from the claim's words (for comparison with the code): all
title-matching candidates are scored, ordered by descending score, and the
*sorted* sequence is truncated to `limit`. -/
def searchSkillsClaimOrder (store : List Skill) (q : String) (limit : ℕ) :
    List ScoredSkill :=
  (List.insertionSort scoreGE
    ((store.filter (fun s => titleMatches q s)).map (mkScored q))).take limit

/-! ### Supporting lemmas about the state operations -/

theorem fetchUser_eq_findUser {okFlag : Bool} {uid : ℕ} {st : DBState} {u : UserRec}
    (h : fetchUser okFlag uid st = some u) : findUser uid st.users = some u := by
  unfold fetchUser at h
  split at h
  · exact h
  · exact absurd h (by simp)

theorem findUser_id {uid : ℕ} {users : List UserRec} {u : UserRec}
    (h : findUser uid users = some u) : u.id = uid := by
  have := List.find?_some h
  simpa using this

theorem findConn_id {cid : ℕ} {conns : List ConnRec} {c : ConnRec}
    (h : findConn cid conns = some c) : c.id = cid := by
  have := List.find?_some h
  simpa using this

theorem creditsOf_eq_of_findUser {uid : ℕ} {st : DBState} {u : UserRec}
    (h : findUser uid st.users = some u) : creditsOf uid st = u.credits.getD 0 := by
  unfold creditsOf
  rw [h]
  rfl

theorem findUser_setCredits (uid tgt : ℕ) (c : ℤ) (st : DBState) :
    findUser uid (setCredits tgt c st).users =
      (findUser uid st.users).map
        (fun u => if u.id == tgt then { u with credits := some c } else u) := by
  unfold findUser setCredits
  rw [List.find?_map]
  have hfun : ((fun u : UserRec => u.id == uid) ∘ fun u : UserRec =>
      if u.id == tgt then { u with credits := some c } else u) =
      fun u : UserRec => u.id == uid := by
    funext u
    by_cases h : u.id = tgt <;> simp [h]
  rw [hfun]

theorem creditsOf_setCredits_same {uid : ℕ} (c : ℤ) {st : DBState} {u : UserRec}
    (h : findUser uid st.users = some u) :
    creditsOf uid (setCredits uid c st) = c := by
  unfold creditsOf
  rw [findUser_setCredits, h]
  simp [findUser_id h]

theorem creditsOf_setCredits_other {uid tgt : ℕ} (c : ℤ) (st : DBState)
    (h : uid ≠ tgt) : creditsOf uid (setCredits tgt c st) = creditsOf uid st := by
  unfold creditsOf
  rw [findUser_setCredits]
  cases hf : findUser uid st.users with
  | none => rfl
  | some u =>
    simp [findUser_id hf, h]

theorem creditsOf_setConnStatus (uid cid : ℕ) (s : ConnStatus) (st : DBState) :
    creditsOf uid (setConnStatus cid s st) = creditsOf uid st := rfl

theorem creditsOf_addTxn (uid : ℕ) (t : TxnRec) (st : DBState) :
    creditsOf uid (addTxn t st) = creditsOf uid st := rfl

theorem transactions_setCredits (tgt : ℕ) (c : ℤ) (st : DBState) :
    (setCredits tgt c st).transactions = st.transactions := rfl

theorem transactions_setConnStatus (cid : ℕ) (s : ConnStatus) (st : DBState) :
    (setConnStatus cid s st).transactions = st.transactions := rfl

theorem transactions_addTxn (t : TxnRec) (st : DBState) :
    (addTxn t st).transactions = st.transactions ++ [t] := rfl

theorem connections_setCredits (tgt : ℕ) (c : ℤ) (st : DBState) :
    (setCredits tgt c st).connections = st.connections := rfl

theorem connections_addTxn (t : TxnRec) (st : DBState) :
    (addTxn t st).connections = st.connections := rfl

theorem users_setConnStatus (cid : ℕ) (s : ConnStatus) (st : DBState) :
    (setConnStatus cid s st).users = st.users := rfl

theorem users_addTxn (t : TxnRec) (st : DBState) :
    (addTxn t st).users = st.users := rfl

theorem findConn_setConnStatus (cid tgt : ℕ) (s : ConnStatus) (st : DBState) :
    findConn cid (setConnStatus tgt s st).connections =
      (findConn cid st.connections).map
        (fun c => if c.id == tgt then { c with status := s } else c) := by
  unfold findConn setConnStatus
  rw [List.find?_map]
  have hfun : ((fun c : ConnRec => c.id == cid) ∘ fun c : ConnRec =>
      if c.id == tgt then { c with status := s } else c) =
      fun c : ConnRec => c.id == cid := by
    funext c
    by_cases h : c.id = tgt <;> simp [h]
  rw [hfun]

/-! ### Run lemmas: the handler's behavior on each of its paths -/

section RunLemmas

variable {st : DBState} {actor cid : ℕ} {conn : ConnRec} {rs : ConnStatus}
variable {fl : StoreFlags} {learner teacher : UserRec}

theorem run_notFound (actor : ℕ) (rs : ConnStatus) (fl : StoreFlags)
    (h : findConn cid st.connections = none) :
    putConnection st actor cid rs fl = (.notFound, st) := by
  unfold putConnection
  rw [h]

theorem run_forbidden (rs : ConnStatus) (fl : StoreFlags)
    (h : findConn cid st.connections = some conn)
    (ht : conn.teacherId ≠ actor) :
    putConnection st actor cid rs fl = (.forbidden, st) := by
  unfold putConnection
  rw [h]
  simp [ht]

theorem run_noTransfer (rs : ConnStatus) (fl : StoreFlags)
    (h : findConn cid st.connections = some conn)
    (ht : conn.teacherId = actor)
    (hg : ¬(rs = .accepted ∧ conn.status ≠ .accepted)) :
    putConnection st actor cid rs fl = finishStatusUpdate st cid rs fl.connUpdateOk := by
  unfold putConnection
  rw [h]
  simp [ht, hg]

theorem run_learnerFail (h : findConn cid st.connections = some conn)
    (ht : conn.teacherId = actor) (hg : rs = .accepted) (hs : conn.status ≠ .accepted)
    (hl : fetchUser fl.learnerFetchOk conn.learnerId st = none) :
    putConnection st actor cid rs fl = (.learnerFetchFail, st) := by
  subst hg
  subst ht
  unfold putConnection
  rw [h]
  simp [hs, hl]

theorem run_insufficient (h : findConn cid st.connections = some conn)
    (ht : conn.teacherId = actor) (hg : rs = .accepted) (hs : conn.status ≠ .accepted)
    (hl : fetchUser fl.learnerFetchOk conn.learnerId st = some learner)
    (hins : learner.credits.getD 0 < conn.price) :
    putConnection st actor cid rs fl = (.insufficientFunds, st) := by
  subst hg
  subst ht
  unfold putConnection
  rw [h]
  simp [hs, hl, hins]

theorem run_teacherFail (h : findConn cid st.connections = some conn)
    (ht : conn.teacherId = actor) (hg : rs = .accepted) (hs : conn.status ≠ .accepted)
    (hl : fetchUser fl.learnerFetchOk conn.learnerId st = some learner)
    (hins : ¬ learner.credits.getD 0 < conn.price)
    (hT : fetchUser fl.teacherFetchOk conn.teacherId st = none) :
    putConnection st actor cid rs fl = (.teacherFetchFail, st) := by
  subst hg
  subst ht
  unfold putConnection
  rw [h]
  simp [hs, hl, hins, hT]

theorem run_deductFail (h : findConn cid st.connections = some conn)
    (ht : conn.teacherId = actor) (hg : rs = .accepted) (hs : conn.status ≠ .accepted)
    (hl : fetchUser fl.learnerFetchOk conn.learnerId st = some learner)
    (hins : ¬ learner.credits.getD 0 < conn.price)
    (hT : fetchUser fl.teacherFetchOk conn.teacherId st = some teacher)
    (hd : fl.deductOk = false) :
    putConnection st actor cid rs fl = (.deductFail, st) := by
  subst hg
  subst ht
  unfold putConnection
  rw [h]
  simp [hs, hl, hins, hT, hd]

theorem run_addFail (h : findConn cid st.connections = some conn)
    (ht : conn.teacherId = actor) (hg : rs = .accepted) (hs : conn.status ≠ .accepted)
    (hl : fetchUser fl.learnerFetchOk conn.learnerId st = some learner)
    (hins : ¬ learner.credits.getD 0 < conn.price)
    (hT : fetchUser fl.teacherFetchOk conn.teacherId st = some teacher)
    (hd : fl.deductOk = true) (ha : fl.addOk = false) :
    putConnection st actor cid rs fl =
      (.addFail, setCredits conn.learnerId (learner.credits.getD 0)
        (setCredits conn.learnerId (learner.credits.getD 0 - conn.price) st)) := by
  subst hg
  subst ht
  unfold putConnection
  rw [h]
  simp [hs, hl, hins, hT, hd, ha]

theorem run_transfer (h : findConn cid st.connections = some conn)
    (ht : conn.teacherId = actor) (hg : rs = .accepted) (hs : conn.status ≠ .accepted)
    (hl : fetchUser fl.learnerFetchOk conn.learnerId st = some learner)
    (hins : ¬ learner.credits.getD 0 < conn.price)
    (hT : fetchUser fl.teacherFetchOk conn.teacherId st = some teacher)
    (hd : fl.deductOk = true) (ha : fl.addOk = true) :
    putConnection st actor cid rs fl =
      finishStatusUpdate
        (addTxn (earnTxn cid conn learner.fullName)
          (addTxn (spendTxn cid conn teacher.fullName)
            (setCredits conn.teacherId (teacher.credits.getD 0 + conn.price)
              (setCredits conn.learnerId (learner.credits.getD 0 - conn.price) st))))
        cid rs fl.connUpdateOk := by
  subst hg
  subst ht
  unfold putConnection
  rw [h]
  simp [hs, hl, hins, hT, hd, ha]

end RunLemmas

/-- Any caller's effective balance is unchanged by the compensating
double `setCredits` that writes the learner's pre-transfer balance back. -/
theorem creditsOf_rollback (uid tgt : ℕ) (lc lc' : ℤ) (st : DBState)
    (u : UserRec) (hf : findUser tgt st.users = some u)
    (hlc : u.credits.getD 0 = lc) :
    creditsOf uid (setCredits tgt lc (setCredits tgt lc' st)) = creditsOf uid st := by
  by_cases h : uid = tgt
  · subst h
    have h1 : findUser uid (setCredits uid lc' st).users =
        some { u with credits := some lc' } := by
      rw [findUser_setCredits, hf]
      simp [findUser_id hf]
    rw [creditsOf_setCredits_same _ h1, creditsOf_eq_of_findUser hf, hlc]
  · rw [creditsOf_setCredits_other _ _ h, creditsOf_setCredits_other _ _ h]

/-! ### Example states used by the witnesses -/

/-- Two users: the learner (id 1, 50 credits) and the teacher (id 2,
5 credits). -/
def exUsers : List UserRec :=
  [{ id := 1, credits := some 50, email := "lena@example.com", fullName := "Lena" },
   { id := 2, credits := some 5, email := "tom@example.com", fullName := "Tom" }]

/-- A pending connection: learner 1 wants to learn skill 3 from teacher 2
at the snapshotted price 30. -/
def exConn : ConnRec :=
  { id := 7, skillId := 3, learnerId := 1, teacherId := 2, price := 30, status := .pending }

/-- The example pre-acceptance state. -/
def exSt : DBState :=
  { users := exUsers, connections := [exConn], transactions := [], wallets := [] }

/-- The state after teacher 2 accepts connection 7 on `exSt`. -/
def exStAfter : DBState :=
  (putConnection exSt 2 7 .accepted allOk).2

/-! ### Claim theorems -/

/-- Claim C1: for every connection acceptance in which the credit transfer
succeeds, the sum of the learner's and teacher's balances is conserved; the
learner is debited exactly the connection's snapshotted price and the
teacher is credited exactly the same amount. -/
theorem C1_transfer_conservation (st st' : DBState) (actor cid : ℕ)
    (conn : ConnRec) (fl : StoreFlags)
    (hfind : findConn cid st.connections = some conn)
    (hstat : conn.status ≠ .accepted)
    (hne : conn.learnerId ≠ conn.teacherId)
    (hrun : putConnection st actor cid .accepted fl = (.ok, st')) :
    creditsOf conn.learnerId st' + creditsOf conn.teacherId st'
        = creditsOf conn.learnerId st + creditsOf conn.teacherId st
    ∧ creditsOf conn.learnerId st' = creditsOf conn.learnerId st - conn.price
    ∧ creditsOf conn.teacherId st' = creditsOf conn.teacherId st + conn.price := by
  by_cases hta : conn.teacherId = actor
  · cases hl : fetchUser fl.learnerFetchOk conn.learnerId st with
    | none =>
      rw [run_learnerFail hfind hta rfl hstat hl] at hrun
      simp at hrun
    | some learner =>
      by_cases hins : learner.credits.getD 0 < conn.price
      · rw [run_insufficient hfind hta rfl hstat hl hins] at hrun
        simp at hrun
      · cases hT : fetchUser fl.teacherFetchOk conn.teacherId st with
        | none =>
          rw [run_teacherFail hfind hta rfl hstat hl hins hT] at hrun
          simp at hrun
        | some teacher =>
          cases hd : fl.deductOk with
          | false =>
            rw [run_deductFail hfind hta rfl hstat hl hins hT hd] at hrun
            simp at hrun
          | true =>
            cases ha : fl.addOk with
            | false =>
              rw [run_addFail hfind hta rfl hstat hl hins hT hd ha] at hrun
              simp at hrun
            | true =>
              rw [run_transfer hfind hta rfl hstat hl hins hT hd ha] at hrun
              unfold finishStatusUpdate at hrun
              cases hcu : fl.connUpdateOk with
              | false =>
                rw [hcu] at hrun
                simp at hrun
              | true =>
                rw [hcu] at hrun
                simp only [if_true, Prod.mk.injEq, true_and] at hrun
                have hfl := fetchUser_eq_findUser hl
                have hfT := fetchUser_eq_findUser hT
                have hLne : conn.teacherId ≠ conn.learnerId := Ne.symm hne
                have hTmid : findUser conn.teacherId
                    (setCredits conn.learnerId (learner.credits.getD 0 - conn.price) st).users
                    = some teacher := by
                  rw [findUser_setCredits, hfT]
                  simp [findUser_id hfT, hLne]
                have hLval : creditsOf conn.learnerId st'
                    = learner.credits.getD 0 - conn.price := by
                  rw [← hrun]
                  rw [creditsOf_setConnStatus, creditsOf_addTxn, creditsOf_addTxn]
                  rw [creditsOf_setCredits_other _ _ hne]
                  exact creditsOf_setCredits_same _ hfl
                have hTval : creditsOf conn.teacherId st'
                    = teacher.credits.getD 0 + conn.price := by
                  rw [← hrun]
                  rw [creditsOf_setConnStatus, creditsOf_addTxn, creditsOf_addTxn]
                  exact creditsOf_setCredits_same _ hTmid
                have hL0 : creditsOf conn.learnerId st = learner.credits.getD 0 :=
                  creditsOf_eq_of_findUser hfl
                have hT0 : creditsOf conn.teacherId st = teacher.credits.getD 0 :=
                  creditsOf_eq_of_findUser hfT
                refine ⟨?_, ?_, ?_⟩
                · rw [hLval, hTval, hL0, hT0]
                  ring
                · rw [hLval, hL0]
                · rw [hTval, hT0]
  · rw [run_forbidden ConnStatus.accepted fl hfind hta] at hrun
    simp at hrun

/-- Witness for C1 at the concrete example state: learner 1 (50 credits)
pays teacher 2 (5 credits) the price 30 of connection 7. -/
theorem C1_transfer_conservation_witness :
    creditsOf exConn.learnerId exStAfter + creditsOf exConn.teacherId exStAfter
        = creditsOf exConn.learnerId exSt + creditsOf exConn.teacherId exSt
    ∧ creditsOf exConn.learnerId exStAfter
        = creditsOf exConn.learnerId exSt - exConn.price
    ∧ creditsOf exConn.teacherId exStAfter
        = creditsOf exConn.teacherId exSt + exConn.price :=
  C1_transfer_conservation exSt exStAfter 2 7 exConn allOk (by decide) (by decide)
    (by decide) (by decide)

/-- Claim C2: an acceptance attempt on a connection whose learner's balance
is below the snapshotted price fails with the insufficient-funds outcome
and returns the state completely unchanged: no balance is mutated, no
transaction is appended, and the connection's status is untouched. -/
theorem C2_insufficient_no_mutation (st : DBState) (actor cid : ℕ)
    (conn : ConnRec) (learner : UserRec) (fl : StoreFlags)
    (hfind : findConn cid st.connections = some conn)
    (hta : conn.teacherId = actor)
    (hstat : conn.status ≠ .accepted)
    (hl : fetchUser fl.learnerFetchOk conn.learnerId st = some learner)
    (hins : learner.credits.getD 0 < conn.price) :
    putConnection st actor cid .accepted fl = (.insufficientFunds, st)
    ∧ (∀ uid, creditsOf uid (putConnection st actor cid .accepted fl).2 = creditsOf uid st)
    ∧ (putConnection st actor cid .accepted fl).2.transactions = st.transactions
    ∧ findConn cid (putConnection st actor cid .accepted fl).2.connections = some conn := by
  have h := run_insufficient hfind hta rfl hstat hl hins
  rw [h]
  exact ⟨rfl, fun _ => rfl, rfl, hfind⟩

/-- The poor-learner row of the spec's insufficient-funds scenario
(balance 10). -/
def exPoorLearner : UserRec :=
  { id := 1, credits := some 10, email := "lena@example.com", fullName := "Lena" }

/-- The pre-state of the spec's insufficient-funds scenario: learner
balance 10, connection price 30, status pending. -/
def exPoorSt : DBState :=
  { users := [exPoorLearner], connections := [exConn], transactions := [], wallets := [] }

/-- Witness for C2 at the spec's scenario: learner balance 10, price 30. -/
theorem C2_insufficient_no_mutation_witness :
    putConnection exPoorSt 2 7 .accepted allOk = (.insufficientFunds, exPoorSt) :=
  (C2_insufficient_no_mutation exPoorSt 2 7 exConn exPoorLearner
    allOk (by decide) (by decide) (by decide) (by decide) (by decide)).1

/-- Claim C3: whenever the transfer part of an acceptance succeeds, exactly
the spend/earning transaction pair is appended (a `spend` of the price for
the learner and a `refund`-typed earning record of the same price for the
teacher, each carrying connection id, skill id, counterparty id and name,
and a reason); on every path on which the transfer does not complete, no
transaction is appended. -/
theorem C3_transaction_pairing (st st' : DBState) (actor cid : ℕ)
    (conn : ConnRec) (fl : StoreFlags) (o : Outcome)
    (hfind : findConn cid st.connections = some conn)
    (hstat : conn.status ≠ .accepted)
    (hrun : putConnection st actor cid .accepted fl = (o, st')) :
    ((o = .ok ∨ o = .connUpdateFail) → ∃ learner teacher : UserRec,
        findUser conn.learnerId st.users = some learner
        ∧ findUser conn.teacherId st.users = some teacher
        ∧ st'.transactions = st.transactions
            ++ [spendTxn cid conn teacher.fullName, earnTxn cid conn learner.fullName])
    ∧ (o ≠ .ok ∧ o ≠ .connUpdateFail → st'.transactions = st.transactions) := by
  by_cases hta : conn.teacherId = actor
  · cases hl : fetchUser fl.learnerFetchOk conn.learnerId st with
    | none =>
      rw [run_learnerFail hfind hta rfl hstat hl, Prod.mk.injEq] at hrun
      obtain ⟨ho, hst⟩ := hrun
      subst ho
      subst hst
      exact ⟨fun h => by simp at h, fun _ => rfl⟩
    | some learner =>
      by_cases hins : learner.credits.getD 0 < conn.price
      · rw [run_insufficient hfind hta rfl hstat hl hins, Prod.mk.injEq] at hrun
        obtain ⟨ho, hst⟩ := hrun
        subst ho
        subst hst
        exact ⟨fun h => by simp at h, fun _ => rfl⟩
      · cases hT : fetchUser fl.teacherFetchOk conn.teacherId st with
        | none =>
          rw [run_teacherFail hfind hta rfl hstat hl hins hT, Prod.mk.injEq] at hrun
          obtain ⟨ho, hst⟩ := hrun
          subst ho
          subst hst
          exact ⟨fun h => by simp at h, fun _ => rfl⟩
        | some teacher =>
          cases hd : fl.deductOk with
          | false =>
            rw [run_deductFail hfind hta rfl hstat hl hins hT hd, Prod.mk.injEq] at hrun
            obtain ⟨ho, hst⟩ := hrun
            subst ho
            subst hst
            exact ⟨fun h => by simp at h, fun _ => rfl⟩
          | true =>
            cases ha : fl.addOk with
            | false =>
              rw [run_addFail hfind hta rfl hstat hl hins hT hd ha, Prod.mk.injEq] at hrun
              obtain ⟨ho, hst⟩ := hrun
              subst ho
              subst hst
              exact ⟨fun h => by simp at h, fun _ => rfl⟩
            | true =>
              rw [run_transfer hfind hta rfl hstat hl hins hT hd ha] at hrun
              unfold finishStatusUpdate at hrun
              have hfl := fetchUser_eq_findUser hl
              have hfT := fetchUser_eq_findUser hT
              cases hcu : fl.connUpdateOk with
              | false =>
                rw [hcu] at hrun
                simp only [Bool.false_eq_true, if_false, Prod.mk.injEq] at hrun
                obtain ⟨ho, hst⟩ := hrun
                subst ho
                subst hst
                refine ⟨fun _ => ⟨learner, teacher, hfl, hfT, ?_⟩, fun h => absurd rfl h.2⟩
                simp [transactions_addTxn, transactions_setCredits]
              | true =>
                rw [hcu] at hrun
                simp only [if_true, Prod.mk.injEq] at hrun
                obtain ⟨ho, hst⟩ := hrun
                subst ho
                subst hst
                refine ⟨fun _ => ⟨learner, teacher, hfl, hfT, ?_⟩, fun h => absurd rfl h.1⟩
                simp [transactions_setConnStatus, transactions_addTxn, transactions_setCredits]
  · rw [run_forbidden ConnStatus.accepted fl hfind hta, Prod.mk.injEq] at hrun
    obtain ⟨ho, hst⟩ := hrun
    subst ho
    subst hst
    exact ⟨fun h => by simp at h, fun _ => rfl⟩

/-- Witness for C3: on the concrete accepted transfer the two appended
records are exactly the spend/earning pair. -/
theorem C3_transaction_pairing_witness :
    ∃ learner teacher : UserRec,
      findUser exConn.learnerId exSt.users = some learner
      ∧ findUser exConn.teacherId exSt.users = some teacher
      ∧ exStAfter.transactions = exSt.transactions
          ++ [spendTxn 7 exConn teacher.fullName, earnTxn 7 exConn learner.fullName] :=
  (C3_transaction_pairing exSt exStAfter 2 7 exConn allOk .ok (by decide) (by decide)
    (by decide)).1 (Or.inl rfl)

/-- Claim C4: when the credit to the teacher fails after the learner's
debit has been committed, the handler compensates by restoring the
learner's balance to its pre-transfer value and surfaces the failure; no
balance is observably changed, no transaction is appended, and the
connection is untouched. -/
theorem C4_compensation (st : DBState) (actor cid : ℕ) (conn : ConnRec)
    (learner teacher : UserRec) (fl : StoreFlags)
    (hfind : findConn cid st.connections = some conn)
    (hta : conn.teacherId = actor)
    (hstat : conn.status ≠ .accepted)
    (hl : fetchUser fl.learnerFetchOk conn.learnerId st = some learner)
    (hins : ¬ learner.credits.getD 0 < conn.price)
    (hT : fetchUser fl.teacherFetchOk conn.teacherId st = some teacher)
    (hd : fl.deductOk = true)
    (ha : fl.addOk = false) :
    (putConnection st actor cid .accepted fl).1 = .addFail
    ∧ (∀ uid, creditsOf uid (putConnection st actor cid .accepted fl).2 = creditsOf uid st)
    ∧ (putConnection st actor cid .accepted fl).2.transactions = st.transactions
    ∧ (putConnection st actor cid .accepted fl).2.connections = st.connections := by
  rw [run_addFail hfind hta rfl hstat hl hins hT hd ha]
  refine ⟨rfl, ?_, rfl, rfl⟩
  intro uid
  exact creditsOf_rollback uid conn.learnerId _ _ st learner (fetchUser_eq_findUser hl) rfl

/-- Witness for C4: concrete acceptance where the credit statement fails
(`addOk := false`); the learner keeps exactly 50 credits. -/
theorem C4_compensation_witness :
    (putConnection exSt 2 7 .accepted
        { learnerFetchOk := true, teacherFetchOk := true, deductOk := true
          addOk := false, connUpdateOk := true }).1 = .addFail
    ∧ (∀ uid, creditsOf uid (putConnection exSt 2 7 .accepted
        { learnerFetchOk := true, teacherFetchOk := true, deductOk := true
          addOk := false, connUpdateOk := true }).2 = creditsOf uid exSt)
    ∧ (putConnection exSt 2 7 .accepted
        { learnerFetchOk := true, teacherFetchOk := true, deductOk := true
          addOk := false, connUpdateOk := true }).2.transactions = exSt.transactions
    ∧ (putConnection exSt 2 7 .accepted
        { learnerFetchOk := true, teacherFetchOk := true, deductOk := true
          addOk := false, connUpdateOk := true }).2.connections = exSt.connections :=
  C4_compensation exSt 2 7 exConn
    { id := 1, credits := some 50, email := "lena@example.com", fullName := "Lena" }
    { id := 2, credits := some 5, email := "tom@example.com", fullName := "Tom" }
    _ (by decide) (by decide) (by decide) (by decide) (by decide) (by decide)
    (by decide) (by decide)

/-- Claim C5: with a healthy store, accepting the same connection twice
performs the credit transfer at most once — the second call leaves every
balance and the transaction log exactly as they were after the first call,
and at most one spend/earning pair is ever appended. -/
theorem C5_idempotent_acceptance (st : DBState) (actor cid : ℕ) :
    ((putConnection (putConnection st actor cid .accepted allOk).2 actor cid
        .accepted allOk).2).users = ((putConnection st actor cid .accepted allOk).2).users
    ∧ ((putConnection (putConnection st actor cid .accepted allOk).2 actor cid
        .accepted allOk).2).transactions
        = ((putConnection st actor cid .accepted allOk).2).transactions
    ∧ ((putConnection st actor cid .accepted allOk).2).transactions.length
        ≤ st.transactions.length + 2
    ∧ ((putConnection (putConnection st actor cid .accepted allOk).2 actor cid
        .accepted allOk).2).transactions.length ≤ st.transactions.length + 2 := by
  cases hfind : findConn cid st.connections with
  | none =>
    simp only [run_notFound actor ConnStatus.accepted allOk hfind]
    refine ⟨?_, ?_, ?_, ?_⟩ <;>
      (try simp only [users_setConnStatus, users_addTxn, transactions_setConnStatus,
        transactions_addTxn, transactions_setCredits, List.length_append,
        List.length_cons, List.length_nil]) <;>
      (first
        | rfl
        | omega
        | trivial)
  | some conn =>
    by_cases hta : conn.teacherId = actor
    · by_cases hstat : conn.status = .accepted
      · -- idempotency guard: current status is already accepted, no transfer
        have h1 := run_noTransfer ConnStatus.accepted allOk hfind hta
          (fun h => h.2 hstat)
        have hfin1 : finishStatusUpdate st cid .accepted allOk.connUpdateOk
            = (.ok, setConnStatus cid .accepted st) := rfl
        have hfind2 : findConn cid (setConnStatus cid .accepted st).connections
            = some { conn with status := ConnStatus.accepted } := by
          rw [findConn_setConnStatus, hfind]
          simp [findConn_id hfind]
        have h2 := run_noTransfer ConnStatus.accepted allOk hfind2 hta
          (fun h => h.2 rfl)
        have hfin2 : finishStatusUpdate (setConnStatus cid .accepted st) cid .accepted
            allOk.connUpdateOk
            = (.ok, setConnStatus cid .accepted (setConnStatus cid .accepted st)) := rfl
        simp only [h1, hfin1, h2, hfin2]
        refine ⟨?_, ?_, ?_, ?_⟩ <;>
      (try simp only [users_setConnStatus, users_addTxn, transactions_setConnStatus,
        transactions_addTxn, transactions_setCredits, List.length_append,
        List.length_cons, List.length_nil]) <;>
      (first
        | rfl
        | omega
        | trivial)
      · cases hl : fetchUser allOk.learnerFetchOk conn.learnerId st with
        | none =>
          simp only [run_learnerFail hfind hta rfl hstat hl]
          refine ⟨?_, ?_, ?_, ?_⟩ <;>
      (try simp only [users_setConnStatus, users_addTxn, transactions_setConnStatus,
        transactions_addTxn, transactions_setCredits, List.length_append,
        List.length_cons, List.length_nil]) <;>
      (first
        | rfl
        | omega
        | trivial)
        | some learner =>
          by_cases hins : learner.credits.getD 0 < conn.price
          · simp only [run_insufficient hfind hta rfl hstat hl hins]
            refine ⟨?_, ?_, ?_, ?_⟩ <;>
      (try simp only [users_setConnStatus, users_addTxn, transactions_setConnStatus,
        transactions_addTxn, transactions_setCredits, List.length_append,
        List.length_cons, List.length_nil]) <;>
      (first
        | rfl
        | omega
        | trivial)
          · cases hT : fetchUser allOk.teacherFetchOk conn.teacherId st with
            | none =>
              simp only [run_teacherFail hfind hta rfl hstat hl hins hT]
              refine ⟨?_, ?_, ?_, ?_⟩ <;>
      (try simp only [users_setConnStatus, users_addTxn, transactions_setConnStatus,
        transactions_addTxn, transactions_setCredits, List.length_append,
        List.length_cons, List.length_nil]) <;>
      (first
        | rfl
        | omega
        | trivial)
            | some teacher =>
              have h1 := run_transfer hfind hta rfl hstat hl hins hT rfl rfl
              have hfin1 : finishStatusUpdate
                  (addTxn (earnTxn cid conn learner.fullName)
                    (addTxn (spendTxn cid conn teacher.fullName)
                      (setCredits conn.teacherId (teacher.credits.getD 0 + conn.price)
                        (setCredits conn.learnerId (learner.credits.getD 0 - conn.price) st))))
                  cid .accepted allOk.connUpdateOk
                  = (.ok, setConnStatus cid .accepted
                      (addTxn (earnTxn cid conn learner.fullName)
                        (addTxn (spendTxn cid conn teacher.fullName)
                          (setCredits conn.teacherId (teacher.credits.getD 0 + conn.price)
                            (setCredits conn.learnerId
                              (learner.credits.getD 0 - conn.price) st))))) := rfl
              have hfind2 : findConn cid (setConnStatus cid .accepted
                  (addTxn (earnTxn cid conn learner.fullName)
                    (addTxn (spendTxn cid conn teacher.fullName)
                      (setCredits conn.teacherId (teacher.credits.getD 0 + conn.price)
                        (setCredits conn.learnerId
                          (learner.credits.getD 0 - conn.price) st))))).connections
                  = some { conn with status := ConnStatus.accepted } := by
                rw [findConn_setConnStatus, connections_addTxn, connections_addTxn,
                  connections_setCredits, connections_setCredits, hfind]
                simp [findConn_id hfind]
              have h2 := run_noTransfer ConnStatus.accepted allOk hfind2 hta
                (fun h => h.2 rfl)
              have hfin2 : ∀ st1 : DBState,
                  finishStatusUpdate st1 cid ConnStatus.accepted allOk.connUpdateOk
                    = (Outcome.ok, setConnStatus cid ConnStatus.accepted st1) :=
                fun _ => rfl
              simp only [h1, hfin1, h2, hfin2]
              refine ⟨?_, ?_, ?_, ?_⟩ <;>
      (try simp only [users_setConnStatus, users_addTxn, transactions_setConnStatus,
        transactions_addTxn, transactions_setCredits, List.length_append,
        List.length_cons, List.length_nil]) <;>
      (first
        | rfl
        | omega
        | trivial)
    · simp only [run_forbidden ConnStatus.accepted allOk hfind hta]
      refine ⟨?_, ?_, ?_, ?_⟩ <;>
      (try simp only [users_setConnStatus, users_addTxn, transactions_setConnStatus,
        transactions_addTxn, transactions_setCredits, List.length_append,
        List.length_cons, List.length_nil]) <;>
      (first
        | rfl
        | omega
        | trivial)

/-- A state with connection 7 already in the terminal status `accepted`
(teacher 2, learner 1). -/
def exAcceptedSt : DBState :=
  { users := exUsers
    connections := [{ exConn with status := ConnStatus.accepted }]
    transactions := []
    wallets := [] }

/-- Counterexample to claim C6 as stated: moving the already-`accepted`
connection 7 to the other terminal status `completed` is *not* rejected —
the request succeeds and overwrites the stored status. -/
theorem C6_counterexample :
    (findConn 7 exAcceptedSt.connections).map (fun c => c.status) = some .accepted
    ∧ (putConnection exAcceptedSt 2 7 .completed allOk).1 = .ok
    ∧ (findConn 7 ((putConnection exAcceptedSt 2 7 .completed allOk).2).connections).map
        (fun c => c.status) = some .completed := by decide

/-- Claim C6 (amended): the handler validates only the enum shape of the
requested status and that the actor is the teacher; apart from the accept
idempotency guard there is no validation against the current status, so any
non-accept request (`rejected`, `completed`, or back to `pending`) succeeds
from any current status — including between terminal statuses — and
overwrites the stored status, touching no balance and no transaction. -/
theorem C6_terminal_transitions_allowed (st : DBState) (actor cid : ℕ)
    (conn : ConnRec) (rs : ConnStatus)
    (hfind : findConn cid st.connections = some conn)
    (hta : conn.teacherId = actor)
    (hrs : rs ≠ .accepted) :
    (putConnection st actor cid rs allOk).1 = .ok
    ∧ findConn cid ((putConnection st actor cid rs allOk).2).connections
        = some { conn with status := rs }
    ∧ ((putConnection st actor cid rs allOk).2).users = st.users
    ∧ ((putConnection st actor cid rs allOk).2).transactions = st.transactions := by
  have h := run_noTransfer rs allOk hfind hta (fun hg => hrs hg.1)
  have hfin : finishStatusUpdate st cid rs allOk.connUpdateOk
      = (.ok, setConnStatus cid rs st) := rfl
  rw [h, hfin]
  refine ⟨rfl, ?_, rfl, rfl⟩
  rw [findConn_setConnStatus, hfind]
  simp [findConn_id hfind]

/-- Witness for the amended C6: the teacher moves the already-`accepted`
connection 7 to `rejected`, and the stored status becomes `rejected`. -/
theorem C6_terminal_transitions_allowed_witness :
    (putConnection exAcceptedSt 2 7 .rejected allOk).1 = .ok
    ∧ findConn 7 ((putConnection exAcceptedSt 2 7 .rejected allOk).2).connections
        = some { exConn with status := ConnStatus.rejected }
    ∧ ((putConnection exAcceptedSt 2 7 .rejected allOk).2).users = exAcceptedSt.users
    ∧ ((putConnection exAcceptedSt 2 7 .rejected allOk).2).transactions
        = exAcceptedSt.transactions := by
  have h := C6_terminal_transitions_allowed exAcceptedSt 2 7
    { exConn with status := ConnStatus.accepted } .rejected
    (by decide) (by decide) (by decide)
  exact ⟨h.1, h.2.1, h.2.2.1, h.2.2.2⟩

/-- Counterexample to claim C7 as stated: cancellation is *not* restricted
to `pending` connections — the learner successfully cancels connection 7
while its status is the terminal `accepted`, and the record is removed. -/
theorem C7_counterexample :
    (findConn 7 exAcceptedSt.connections).map (fun c => c.status) = some .accepted
    ∧ (deleteConnection exAcceptedSt 1 7).1 = .ok
    ∧ findConn 7 ((deleteConnection exAcceptedSt 1 7).2).connections = none := by decide

/-- Claim C7 (amended): cancel fails with `NotFound` when the connection is
absent and with `Forbidden` unless the actor is the learner; for the
learner it succeeds *regardless of the connection's status* (the handler
never checks it), removes the record entirely — leaving balances and
transactions untouched — and a subsequent cancel of the same connection
fails with `NotFound`. -/
theorem C7_cancel_behavior (st : DBState) (actor cid : ℕ) :
    (findConn cid st.connections = none →
        deleteConnection st actor cid = (.notFound, st))
    ∧ (∀ conn, findConn cid st.connections = some conn → conn.learnerId ≠ actor →
        deleteConnection st actor cid = (.forbidden, st))
    ∧ (∀ conn, findConn cid st.connections = some conn → conn.learnerId = actor →
        (deleteConnection st actor cid).1 = .ok
        ∧ findConn cid ((deleteConnection st actor cid).2).connections = none
        ∧ ((deleteConnection st actor cid).2).users = st.users
        ∧ ((deleteConnection st actor cid).2).transactions = st.transactions
        ∧ deleteConnection ((deleteConnection st actor cid).2) actor cid
            = (.notFound, (deleteConnection st actor cid).2)) := by
  refine ⟨?_, ?_, ?_⟩
  · intro h
    unfold deleteConnection
    rw [h]
  · intro conn h hne
    unfold deleteConnection
    rw [h]
    simp [hne]
  · intro conn h hla
    have hrun : deleteConnection st actor cid =
        (.ok, { st with connections := st.connections.filter (fun c => !(c.id == cid)) }) := by
      unfold deleteConnection
      rw [h]
      simp [hla]
    have hnone : findConn cid (st.connections.filter (fun c => !(c.id == cid))) = none := by
      unfold findConn
      rw [List.find?_eq_none]
      intro x hx
      have hmem := (List.mem_filter.mp hx).2
      simp at hmem ⊢
      exact hmem
    have hagain : deleteConnection
        { st with connections := st.connections.filter (fun c => !(c.id == cid)) } actor cid
        = (.notFound,
          { st with connections := st.connections.filter (fun c => !(c.id == cid)) }) := by
      unfold deleteConnection
      rw [show ({ st with connections := st.connections.filter (fun c => !(c.id == cid)) } :
        DBState).connections = st.connections.filter (fun c => !(c.id == cid)) from rfl]
      rw [hnone]
    rw [hrun]
    exact ⟨rfl, hnone, rfl, rfl, hagain⟩

/-- Witness for the amended C7: learner 1 cancels the accepted connection 7
(removed; balances and log untouched; re-cancel is `NotFound`), and
teacher 2's cancel attempt is `Forbidden`. -/
theorem C7_cancel_behavior_witness :
    ((deleteConnection exAcceptedSt 1 7).1 = .ok
      ∧ findConn 7 ((deleteConnection exAcceptedSt 1 7).2).connections = none
      ∧ ((deleteConnection exAcceptedSt 1 7).2).users = exAcceptedSt.users
      ∧ ((deleteConnection exAcceptedSt 1 7).2).transactions = exAcceptedSt.transactions
      ∧ deleteConnection ((deleteConnection exAcceptedSt 1 7).2) 1 7
          = (.notFound, (deleteConnection exAcceptedSt 1 7).2))
    ∧ deleteConnection exAcceptedSt 2 7 = (.forbidden, exAcceptedSt) :=
  ⟨(C7_cancel_behavior exAcceptedSt 1 7).2.2
      { exConn with status := ConnStatus.accepted } (by decide) (by decide),
    (C7_cancel_behavior exAcceptedSt 2 7).2.1
      { exConn with status := ConnStatus.accepted } (by decide) (by decide)⟩

/-- Claim C10: for an authenticated user with no wallet row, the balance
query creates the wallet with initial balance 100 (not 0) and responds with
balance 100. -/
theorem C10_wallet_autocreate (st : DBState) (uid : ℕ)
    (h : st.wallets.find? (fun w => w.userId == uid) = none) :
    (getBalance st (some uid)).1 = 100
    ∧ ((getBalance st (some uid)).2).wallets.find? (fun w => w.userId == uid)
        = some { userId := uid, balance := 100 } := by
  have hrun : getBalance st (some uid)
      = (100, { st with wallets := st.wallets ++ [{ userId := uid, balance := 100 }] }) := by
    unfold getBalance
    simp only [h]
  rw [hrun]
  refine ⟨rfl, ?_⟩
  rw [show ({ st with wallets := st.wallets
        ++ [{ userId := uid, balance := 100 }] } : DBState).wallets
      = st.wallets ++ [{ userId := uid, balance := 100 }] from rfl]
  rw [List.find?_append, h]
  simp

/-- The interchange of the two tag arguments only swaps the intersection
and the product under the square root. -/
theorem tagScore_comm (A B : List String) :
    calculateTagOverlapScore A B = calculateTagOverlapScore B A := by
  unfold calculateTagOverlapScore
  by_cases h : (normTags A).card = 0 ∨ (normTags B).card = 0
  · rw [if_pos h, if_pos (Or.symm h)]
  · rw [if_neg h, if_neg (fun h' => h (Or.symm h'))]
    rw [Finset.inter_comm, mul_comm]

/-- The overlap score is nonnegative. -/
theorem tagScore_nonneg (A B : List String) : 0 ≤ calculateTagOverlapScore A B := by
  unfold calculateTagOverlapScore
  split
  · exact le_refl 0
  · exact div_nonneg (Nat.cast_nonneg _) (Real.sqrt_nonneg _)

/-- The overlap score never exceeds 1: the intersection is at most as large
as either set, so its size is at most the geometric mean of the sizes. -/
theorem tagScore_le_one (A B : List String) : calculateTagOverlapScore A B ≤ 1 := by
  unfold calculateTagOverlapScore
  split
  · norm_num
  · rename_i hne
    push_neg at hne
    obtain ⟨ha, hb⟩ := hne
    have hia : (normTags A ∩ normTags B).card ≤ (normTags A).card :=
      Finset.card_le_card Finset.inter_subset_left
    have hib : (normTags A ∩ normTags B).card ≤ (normTags B).card :=
      Finset.card_le_card Finset.inter_subset_right
    have hprod : ((normTags A ∩ normTags B).card : ℝ) * ((normTags A ∩ normTags B).card : ℝ)
        ≤ ((normTags A).card : ℝ) * ((normTags B).card : ℝ) := by
      have := Nat.mul_le_mul hia hib
      exact_mod_cast this
    have hle : ((normTags A ∩ normTags B).card : ℝ)
        ≤ Real.sqrt (((normTags A).card : ℝ) * ((normTags B).card : ℝ)) := by
      rw [show ((normTags A ∩ normTags B).card : ℝ)
          = Real.sqrt (((normTags A ∩ normTags B).card : ℝ)
            * ((normTags A ∩ normTags B).card : ℝ)) from
        (Real.sqrt_mul_self (Nat.cast_nonneg _)).symm]
      exact Real.sqrt_le_sqrt hprod
    have hpos : 0 < Real.sqrt (((normTags A).card : ℝ) * ((normTags B).card : ℝ)) := by
      apply Real.sqrt_pos.mpr
      have ha1 : (1 : ℝ) ≤ ((normTags A).card : ℝ) := by exact_mod_cast Nat.one_le_iff_ne_zero.mpr ha
      have hb1 : (1 : ℝ) ≤ ((normTags B).card : ℝ) := by exact_mod_cast Nat.one_le_iff_ne_zero.mpr hb
      nlinarith
    exact (div_le_one hpos).mpr hle

/-- Claim C8: the tag-overlap score case-insensitively normalizes both tag
lists into sets and satisfies: it always lies in [0,1]; it is symmetric in
its two arguments; it is 0 whenever either normalized set is empty; it is 1
whenever the two tag lists are equal and non-empty; and otherwise it equals
the intersection size divided by the square root of the product of the set
sizes. -/
theorem C8_tag_overlap_score (A B : List String) :
    (0 ≤ calculateTagOverlapScore A B ∧ calculateTagOverlapScore A B ≤ 1)
    ∧ calculateTagOverlapScore A B = calculateTagOverlapScore B A
    ∧ ((normTags A = ∅ ∨ normTags B = ∅) → calculateTagOverlapScore A B = 0)
    ∧ (A = B ∧ A ≠ [] → calculateTagOverlapScore A B = 1)
    ∧ (normTags A ≠ ∅ → normTags B ≠ ∅ →
        calculateTagOverlapScore A B
          = ((normTags A ∩ normTags B).card : ℝ)
            / Real.sqrt (((normTags A).card : ℝ) * ((normTags B).card : ℝ))) := by
  refine ⟨⟨tagScore_nonneg A B, tagScore_le_one A B⟩, tagScore_comm A B, ?_, ?_, ?_⟩
  · intro h
    unfold calculateTagOverlapScore
    rw [if_pos]
    rcases h with h | h
    · exact Or.inl (by rw [h]; exact Finset.card_empty)
    · exact Or.inr (by rw [h]; exact Finset.card_empty)
  · rintro ⟨rfl, hne⟩
    have hcard : (normTags A).card ≠ 0 := by
      rw [Finset.card_ne_zero, normTags]
      rcases A with _ | ⟨t, ts⟩
      · exact absurd rfl hne
      · exact ⟨lowerStr t, by simp⟩
    unfold calculateTagOverlapScore
    rw [if_neg (by simp [hcard])]
    rw [Finset.inter_self]
    rw [Real.sqrt_mul_self (Nat.cast_nonneg _)]
    exact div_self (by exact_mod_cast hcard)
  · intro ha hb
    unfold calculateTagOverlapScore
    rw [if_neg]
    simp [Finset.card_eq_zero, ha, hb]

/-- Witness for C8: an empty second tag list gives score 0, and equal
non-empty tag lists give score 1. -/
theorem C8_tag_overlap_score_witness :
    calculateTagOverlapScore ["piano"] [] = 0
    ∧ calculateTagOverlapScore ["a", "b"] ["a", "b"] = 1 :=
  ⟨(C8_tag_overlap_score ["piano"] []).2.2.1 (Or.inr (by simp [normTags])),
    (C8_tag_overlap_score ["a", "b"] ["a", "b"]).2.2.2.1 ⟨rfl, by simp⟩⟩

/-- Inserting into the descending-ordered position keeps every equal-score
band of the list intact: the inserted element lands in front of its own
band because the skipped prefix has strictly greater scores. -/
theorem filter_score_orderedInsert (k : ℕ) (x : ScoredSkill) (l : List ScoredSkill) :
    (List.orderedInsert scoreGE x l).filter (fun y => y.score == k)
      = if x.score = k then x :: l.filter (fun y => y.score == k)
        else l.filter (fun y => y.score == k) := by
  induction l with
  | nil =>
    by_cases hx : x.score = k <;> simp [List.orderedInsert, hx]
  | cons y ys ih =>
    by_cases hxy : scoreGE x y
    · by_cases hx : x.score = k <;> by_cases hy : y.score = k <;>
        simp [List.orderedInsert, hxy, hx, hy, List.filter_cons]
    · have hlt : x.score < y.score := by
        unfold scoreGE at hxy
        omega
      by_cases hx : x.score = k
      · have hy : ¬ y.score = k := by omega
        simp [List.orderedInsert, hxy, List.filter_cons, hx, hy, ih]
      · by_cases hy : y.score = k <;>
          simp [List.orderedInsert, hxy, List.filter_cons, hx, hy, ih]

/-- The descending insertion sort used to model the JS stable sort keeps
every equal-score band in its original order. -/
theorem filter_score_insertionSort (k : ℕ) (l : List ScoredSkill) :
    (List.insertionSort scoreGE l).filter (fun y => y.score == k)
      = l.filter (fun y => y.score == k) := by
  induction l with
  | nil => rfl
  | cons x xs ih =>
    rw [List.insertionSort, filter_score_orderedInsert, List.filter_cons]
    by_cases hx : x.score = k <;> simp [hx, ih]

/-- A title-matching candidate with no tags (score 0), listed first in the
store. -/
def exSkillA : Skill :=
  { id := 1, title := "chess basics", description := none, ownerId := 10
    price := 0, tags := some [] }

/-- A title-matching candidate with one tag (score 1), listed second. -/
def exSkillB : Skill :=
  { id := 2, title := "chess tactics", description := none, ownerId := 11
    price := 0, tags := some ["chess"] }

/-- Counterexample to claim C9 as stated: with two title-matching skills
and limit 1, the code truncates to the first candidate in store order
*before* scoring and sorting, so it returns the low-scoring `exSkillA`,
whereas the claim's sort-then-truncate reading returns the high-scoring
`exSkillB`. -/
theorem C9_counterexample :
    searchSkillsByQuery [exSkillA, exSkillB] "chess" 1 = [mkScored "chess" exSkillA]
    ∧ searchSkillsClaimOrder [exSkillA, exSkillB] "chess" 1 = [mkScored "chess" exSkillB]
    ∧ searchSkillsByQuery [exSkillA, exSkillB] "chess" 1
        ≠ searchSkillsClaimOrder [exSkillA, exSkillB] "chess" 1 := by decide

/-- Claim C9 (amended): the candidates are the *first `limit`* skills in
store order whose title contains the query case-insensitively (the
truncation happens in the store query, before scoring); each candidate is
scored as tag count plus 2 when its description contains the query
case-insensitively; and the result is exactly those scored candidates in
descending score order with a stable tie-break (no further truncation
after sorting, so the result need not contain the globally highest-scoring
matches). -/
theorem C9_search_properties (store : List Skill) (q : String) (limit : ℕ) :
    (∀ x ∈ searchSkillsByQuery store q limit,
        titleMatches q x.skill = true ∧ x.score = searchScore q x.skill)
    ∧ List.Sorted scoreGE (searchSkillsByQuery store q limit)
    ∧ (searchSkillsByQuery store q limit).Perm
        (((store.filter (fun s => titleMatches q s)).take limit).map (mkScored q))
    ∧ (∀ k : ℕ, (searchSkillsByQuery store q limit).filter (fun x => x.score == k)
        = (((store.filter (fun s => titleMatches q s)).take limit).map (mkScored q)).filter
            (fun x => x.score == k))
    ∧ (searchSkillsByQuery store q limit).length
        = min limit (store.filter (fun s => titleMatches q s)).length := by
  refine ⟨?_, ?_, ?_, ?_, ?_⟩
  · intro x hx
    have hx' : x ∈ ((store.filter (fun s => titleMatches q s)).take limit).map (mkScored q) :=
      (List.perm_insertionSort scoreGE _).mem_iff.mp hx
    obtain ⟨s, hs, rfl⟩ := List.mem_map.mp hx'
    have hsf : s ∈ store.filter (fun s => titleMatches q s) := List.take_subset _ _ hs
    exact ⟨(List.mem_filter.mp hsf).2, rfl⟩
  · exact List.sorted_insertionSort scoreGE _
  · exact List.perm_insertionSort scoreGE _
  · intro k
    exact filter_score_insertionSort k _
  · unfold searchSkillsByQuery
    rw [(List.perm_insertionSort scoreGE _).length_eq, List.length_map, List.length_take]

/-- Witness for the amended C9: on the counterexample store the returned
element is title-matching and carries its computed score. -/
theorem C9_search_properties_witness :
    titleMatches "chess" exSkillA = true
    ∧ (mkScored "chess" exSkillA).score = searchScore "chess" exSkillA :=
  (C9_search_properties [exSkillA, exSkillB] "chess" 1).1
    (mkScored "chess" exSkillA) (by decide)

/-- Witness for C10: a fresh store has no wallet for user 9; the query
creates it with balance 100 and answers 100. -/
theorem C10_wallet_autocreate_witness :
    (getBalance { users := [], connections := [], transactions := [], wallets := [] }
        (some 9)).1 = 100
    ∧ ((getBalance { users := [], connections := [], transactions := [], wallets := [] }
        (some 9)).2).wallets.find? (fun w => w.userId == 9)
        = some { userId := 9, balance := 100 } :=
  C10_wallet_autocreate
    { users := [], connections := [], transactions := [], wallets := [] } 9 (by decide)

end SkillLink
